import Mathlib

/-!
Shallow embedding of the setup-vps webhook ingress server, translated from
webhook/main.go. The server verifies an HMAC-SHA256 signature over the raw
request body, filters by event type, ref and repository name, and enqueues a
deploy job by creating a directory (one queue slot per repository identity)
under the mailbox root. Machine 32-bit words are modelled as Nat with explicit
reduction modulo 2 to the 32. Byte strings are modelled as List Nat.
-/

set_option maxRecDepth 1000000

/-- UTF-8 code units of an ASCII string, as natural numbers. Used to write
concrete byte-string inputs; all concrete inputs in this file are ASCII, where
code points and UTF-8 bytes coincide. -/
def strBytes (s : String) : List Nat := s.data.map Char.toNat

/-- Two to the 32, the word modulus for SHA-256 arithmetic. -/
def w32 : Nat := 4294967296

/-- 32-bit addition. -/
def add32 (a b : Nat) : Nat := (a + b) % w32

/-- 32-bit right rotation by n. -/
def rotr32 (x n : Nat) : Nat := ((x >>> n) ||| (x <<< (32 - n))) % w32

/-- SHA-256 big Sigma0. -/
def bigSigma0 (x : Nat) : Nat := (rotr32 x 2) ^^^ (rotr32 x 13) ^^^ (rotr32 x 22)

/-- SHA-256 big Sigma1. -/
def bigSigma1 (x : Nat) : Nat := (rotr32 x 6) ^^^ (rotr32 x 11) ^^^ (rotr32 x 25)

/-- SHA-256 small sigma0. -/
def smallSigma0 (x : Nat) : Nat := (rotr32 x 7) ^^^ (rotr32 x 18) ^^^ (x >>> 3)

/-- SHA-256 small sigma1. -/
def smallSigma1 (x : Nat) : Nat := (rotr32 x 17) ^^^ (rotr32 x 19) ^^^ (x >>> 10)

/-- SHA-256 choice function; bitwise complement within 32 bits is xor with the
all-ones word. -/
def chFn (x y z : Nat) : Nat := (x &&& y) ^^^ ((x ^^^ 4294967295) &&& z)

/-- SHA-256 majority function. -/
def majFn (x y z : Nat) : Nat := (x &&& y) ^^^ (x &&& z) ^^^ (y &&& z)

/-- The 64 SHA-256 round constants. -/
def sha256K : List Nat :=
  [1116352408, 1899447441, 3049323471, 3921009573, 961987163,
   1508970993, 2453635748, 2870763221, 3624381080, 310598401,
   607225278, 1426881987, 1925078388, 2162078206, 2614888103,
   3248222580, 3835390401, 4022224774, 264347078, 604807628,
   770255983, 1249150122, 1555081692, 1996064986, 2554220882,
   2821834349, 2952996808, 3210313671, 3336571891, 3584528711,
   113926993, 338241895, 666307205, 773529912, 1294757372,
   1396182291, 1695183700, 1986661051, 2177026350, 2456956037,
   2730485921, 2820302411, 3259730800, 3345764771, 3516065817,
   3600352804, 4094571909, 275423344, 430227734, 506948616,
   659060556, 883997877, 958139571, 1322822218, 1537002063,
   1747873779, 1955562222, 2024104815, 2227730452, 2361852424,
   2428436474, 2756734187, 3204031479, 3329325298]

/-- The eight 32-bit words of SHA-256 working state. -/
structure H8 where
  a : Nat
  b : Nat
  c : Nat
  d : Nat
  e : Nat
  f : Nat
  g : Nat
  h : Nat
deriving DecidableEq

/-- SHA-256 initial hash value. -/
def sha256Init : H8 :=
  ⟨1779033703, 3144134277, 1013904242, 2773480762,
   1359893119, 2600822924, 528734635, 1541459225⟩

/-- Group bytes into big-endian 32-bit words. -/
def toWords32 : List Nat → List Nat
  | b0 :: b1 :: b2 :: b3 :: rest => (b0 * 16777216 + b1 * 65536 + b2 * 256 + b3) :: toWords32 rest
  | _ => []

/-- One message-schedule extension step, appending the next word. -/
def scheduleStep (w : List Nat) : List Nat :=
  let t := w.length
  let s1 := smallSigma1 (w.getD (t - 2) 0)
  let s0 := smallSigma0 (w.getD (t - 15) 0)
  w ++ [(w.getD (t - 16) 0 + s0 + w.getD (t - 7) 0 + s1) % w32]

/-- Extend the 16-word block schedule by n further words. -/
def schedule : Nat → List Nat → List Nat
  | 0, w => w
  | n + 1, w => schedule n (scheduleStep w)

/-- One SHA-256 compression round. -/
def compressStep (k w : Nat) (s : H8) : H8 :=
  let t1 := (s.h + bigSigma1 s.e + chFn s.e s.f s.g + k + w) % w32
  let t2 := (bigSigma0 s.a + majFn s.a s.b s.c) % w32
  ⟨(t1 + t2) % w32, s.a, s.b, s.c, (s.d + t1) % w32, s.e, s.f, s.g⟩

/-- Run the 64 compression rounds over the round constants and schedule. -/
def compressRounds : List Nat → List Nat → H8 → H8
  | k :: ks, w :: ws, s => compressRounds ks ws (compressStep k w s)
  | _, _, s => s

/-- Compress one 64-byte block into the running hash state. -/
def compressBlock (s : H8) (block : List Nat) : H8 :=
  let w := schedule 48 (toWords32 block)
  let r := compressRounds sha256K w s
  ⟨add32 s.a r.a, add32 s.b r.b, add32 s.c r.c, add32 s.d r.d,
   add32 s.e r.e, add32 s.f r.f, add32 s.g r.g, add32 s.h r.h⟩

/-- Fold the compression function over n consecutive 64-byte blocks. -/
def processBlocks : Nat → H8 → List Nat → H8
  | 0, s, _ => s
  | n + 1, s, msg => processBlocks n (compressBlock s (msg.take 64)) (msg.drop 64)

/-- Big-endian byte expansion of a natural number into the given byte count. -/
def natToBytesBE (n count : Nat) : List Nat :=
  (List.range count).map (fun i => (n >>> (8 * (count - 1 - i))) % 256)

/-- SHA-256 padding: a 0x80 byte, zeros to 56 mod 64, then the 64-bit
big-endian message bit length. -/
def padMessage (msg : List Nat) : List Nat :=
  let len := msg.length
  msg ++ [128] ++ List.replicate ((119 - len % 64) % 64) 0 ++ natToBytesBE (len * 8) 8

/-- SHA-256 digest of a byte string, as 32 bytes. Models crypto/sha256. -/
def sha256Bytes (msg : List Nat) : List Nat :=
  let padded := padMessage msg
  let s := processBlocks (padded.length / 64) sha256Init padded
  ([s.a, s.b, s.c, s.d, s.e, s.f, s.g, s.h].map (fun x => natToBytesBE x 4)).flatten

/-- HMAC-SHA256 of msg under key. Models crypto/hmac with sha256.New: keys
longer than the 64-byte block size are hashed first, then zero-padded, and the
inner and outer pads are 0x36 and 0x5c. -/
def hmacSha256 (key msg : List Nat) : List Nat :=
  let k0 := if key.length > 64 then sha256Bytes key else key
  let kPad := k0 ++ List.replicate (64 - k0.length) 0
  let inner := sha256Bytes ((kPad.map (fun b => b ^^^ 54)) ++ msg)
  sha256Bytes ((kPad.map (fun b => b ^^^ 92)) ++ inner)

/-- Lowercase hex digit byte for a value below 16. Models encoding/hex, whose
digit table is 0123456789abcdef. -/
def hexDigitByte (d : Nat) : Nat := if d < 10 then 48 + d else 87 + d

/-- Lowercase hex encoding of a byte string, as ASCII bytes. Models
hex.EncodeToString from encoding/hex. -/
def hexEncode (bs : List Nat) : List Nat :=
  (bs.map (fun b => [hexDigitByte (b / 16), hexDigitByte (b % 16)])).flatten

/-- The or-accumulated xor of two byte strings, the loop body accumulator of
ConstantTimeCompare from crypto/subtle: v is the bitwise or of the bytewise
xors. The function is only consulted on equal-length inputs. -/
def ctOrXor : List Nat → List Nat → Nat
  | x :: xs, y :: ys => (x ^^^ y) ||| ctOrXor xs ys
  | _, _ => 0

/-- ConstantTimeCompare from crypto/subtle, as a Bool: unequal lengths answer
false immediately; otherwise the loop ors together all bytewise xors and the
answer is whether the accumulator is zero. -/
def constantTimeCompare (x y : List Nat) : Bool :=
  if x.length = y.length then ctOrXor x y == 0 else false

/-- Loop-iteration count of ConstantTimeCompare: the cost model of the same
loop. When the lengths differ the function returns before the loop; when they
match the loop visits every index, with no early exit on a differing byte. -/
def ctLoopSteps : List Nat → List Nat → Nat
  | _ :: xs, _ :: ys => ctLoopSteps xs ys + 1
  | _, _ => 0

/-- Iteration count actually spent by constantTimeCompare on a pair of
inputs. -/
def constantTimeCompareSteps (x y : List Nat) : Nat :=
  if x.length = y.length then ctLoopSteps x y else 0

/-- Equal from crypto/hmac, which is ConstantTimeCompare applied to the two
MACs. -/
def hmacEqual (x y : List Nat) : Bool := constantTimeCompare x y

/-- verifySignature from main.go lines 68 to 82. The signature header is a
byte string; Go slices strings by byte index, so the guard rejects a header
that is empty, shorter than 7 bytes, or whose first 7 bytes are not sha256=.
The expected MAC is the lowercase hex encoding of the HMAC-SHA256 of the body
under the secret, compared with hmac.Equal against the bytes after the
prefix. -/
def verifySignature (secret : String) (body signature : List Nat) : Except String Unit :=
  if signature = [] ∨ signature.length < 7 ∨ signature.take 7 ≠ strBytes "sha256=" then
    .error "missing or invalid signature"
  else
    let expectedMAC := hexEncode (hmacSha256 (strBytes secret) body)
    let receivedMAC := signature.drop 7
    if hmacEqual expectedMAC receivedMAC then .ok () else .error "signature mismatch"

/-- Whether a character is allowed by the repository-name regular expression
class, which is letters, digits, underscore and hyphen. -/
def isRepoNameChar (c : Char) : Bool :=
  (97 ≤ c.toNat && c.toNat ≤ 122) || (65 ≤ c.toNat && c.toNat ≤ 90) ||
  (48 ≤ c.toNat && c.toNat ≤ 57) || c.toNat == 95 || c.toNat == 45

/-- MatchString of repoNamePattern from main.go line 22. The RE2 expression
is anchored on both sides with no multiline flag, so it matches exactly the
nonempty strings all of whose characters lie in the class. -/
def repoNamePattern (s : String) : Bool :=
  !s.data.isEmpty && s.data.all isRepoNameChar

/-- The nested repository object of the webhook payload, carrying the name
field. -/
structure RepositoryInfo where
  name : String
deriving DecidableEq

/-- GitHubWebhookPayload from main.go lines 25 to 30: the ref string and the
nested repository name, as produced by json.Unmarshal. -/
structure GitHubWebhookPayload where
  ref : String
  repository : RepositoryInfo
deriving DecidableEq

/-- The JSON shapes the handler responds with: an error object, an ok object
with an ignored reason, or the ok-and-queued object. -/
inductive RespBody where
  | errMsg (msg : String)
  | ignored (reason : String)
  | queued
deriving DecidableEq

/-- An HTTP response: status code plus JSON body shape. -/
structure Response where
  status : Nat
  body : RespBody
deriving DecidableEq

/-- The mailbox root, webhookDir from main.go line 20. -/
def webhookDir : String := "/app/webhook_jobs"

/-- filepath.Join on the two arguments the code passes: Join cleans the
concatenation a ++ / ++ b, and for the already-clean absolute root and a
separator-free, dot-free second component (the only shape runDeploy is ever
called with, since the handler has validated it against repoNamePattern)
cleaning is the identity. -/
def filepathJoin (a b : String) : String := a ++ "/" ++ b

/-- Queue storage state: the set of created slot directories (as full paths)
under the mailbox root, plus an availability flag modelling whether the
backing storage accepts writes. -/
structure FS where
  dirs : List String
  available : Bool
deriving DecidableEq

/-- os.MkdirAll: when storage is available it succeeds, creating the directory
if absent (creating an existing directory is a no-op); when storage is
unavailable it fails and changes nothing. Returns the new state and whether
the call succeeded. -/
def mkdirAll (fs : FS) (path : String) : FS × Bool :=
  if fs.available then
    (⟨if path ∈ fs.dirs then fs.dirs else path :: fs.dirs, fs.available⟩, true)
  else (fs, false)

/-- runDeploy from main.go lines 84 to 92: join the repository name onto the
mailbox root and MkdirAll the resulting slot directory. A failure is only
printed, never propagated; the Bool records whether MkdirAll succeeded. -/
def runDeploy (fs : FS) (repository : String) : FS × Bool :=
  mkdirAll fs (filepathJoin webhookDir repository)

/-- githubWebhookHandler from main.go lines 94 to 142. Inputs are the result
of reading the request body (io.ReadAll can fail), the signature and event
headers, and the configured secret. json.Unmarshal is passed in as the
function jsonUnmarshal from body bytes to an optional payload. The result is
the HTTP response together with the list of repository names for which the
handler spawned go runDeploy; the response is computed without consulting any
filesystem state, because the slot write happens in the spawned goroutine. -/
def githubWebhookHandler (secret : String)
    (jsonUnmarshal : List Nat → Option GitHubWebhookPayload)
    (bodyRead : Option (List Nat)) (signature : List Nat) (event : String) :
    Response × List String :=
  match bodyRead with
  | none => (⟨400, .errMsg "failed to read body"⟩, [])
  | some body =>
    match verifySignature secret body signature with
    | .error e => (⟨401, .errMsg e⟩, [])
    | .ok _ =>
      if event ≠ "push" then (⟨200, .ignored "not a push"⟩, [])
      else
        match jsonUnmarshal body with
        | none => (⟨400, .errMsg "invalid JSON"⟩, [])
        | some payload =>
          if payload.ref ≠ "refs/heads/main" then (⟨200, .ignored "not main"⟩, [])
          else
            let repository := payload.repository.name
            if !repoNamePattern repository then (⟨200, .ignored "invalid repository"⟩, [])
            else (⟨200, .queued⟩, [repository])

/-- The correctly signed header value for a body under a secret: the sha256=
prefix followed by the lowercase hex HMAC. -/
def goodSig (secret : String) (body : List Nat) : List Nat :=
  strBytes "sha256=" ++ hexEncode (hmacSha256 (strBytes secret) body)

/-- A concrete json.Unmarshal oracle used in witnesses: every body parses to
the main-branch payload for repository svc1. -/
def parseMainSvc1 : List Nat → Option GitHubWebhookPayload :=
  fun _ => some ⟨"refs/heads/main", ⟨"svc1"⟩⟩

instance : DecidableEq (Except String Unit) := fun a b =>
  match a, b with
  | .error x, .error y =>
    if h : x = y then .isTrue (by rw [h]) else .isFalse (fun hc => h (by injection hc))
  | .ok x, .ok y => match x, y with | (), () => .isTrue rfl
  | .error _, .ok _ => .isFalse (fun hc => Except.noConfusion hc)
  | .ok _, .error _ => .isFalse (fun hc => Except.noConfusion hc)

theorem natLorEqZero (a b : Nat) : a ||| b = 0 ↔ a = 0 ∧ b = 0 := by
  constructor
  · intro h
    refine ⟨Nat.eq_of_testBit_eq fun i => ?_, Nat.eq_of_testBit_eq fun i => ?_⟩ <;>
      · have hb := congrArg (fun n => Nat.testBit n i) h
        simp [Nat.testBit_lor] at hb
        simp [hb]
  · rintro ⟨rfl, rfl⟩
    rfl

theorem ctOrXor_eq_zero {x y : List Nat} (h : x.length = y.length) :
    ctOrXor x y = 0 ↔ x = y := by
  induction x generalizing y with
  | nil =>
    cases y with
    | nil => simp [ctOrXor]
    | cons b u => simp at h
  | cons a t ih =>
    cases y with
    | nil => simp at h
    | cons b u =>
      simp only [List.length_cons, Nat.add_right_cancel_iff] at h
      simp only [ctOrXor, natLorEqZero, Nat.xor_eq_zero, ih h, List.cons.injEq]

theorem hmacEqual_iff (x y : List Nat) : hmacEqual x y = true ↔ x = y := by
  unfold hmacEqual constantTimeCompare
  by_cases h : x.length = y.length
  · simp only [h, if_true, beq_iff_eq, ctOrXor_eq_zero h]
  · simp only [h, if_false]
    constructor
    · intro hf; exact absurd hf (by simp)
    · rintro rfl; exact absurd rfl h

theorem ctLoopSteps_eq_min (x y : List Nat) :
    ctLoopSteps x y = min x.length y.length := by
  induction x generalizing y with
  | nil => cases y <;> simp [ctLoopSteps]
  | cons a t ih =>
    cases y with
    | nil => simp [ctLoopSteps]
    | cons b u =>
      simp only [ctLoopSteps, ih, List.length_cons]
      omega

theorem sha256HeaderLen : (strBytes "sha256=").length = 7 := by decide

theorem verify_ok_iff (secret : String) (body signature : List Nat) :
    verifySignature secret body signature = .ok () ↔
      signature.take 7 = strBytes "sha256=" ∧
      hmacEqual (hexEncode (hmacSha256 (strBytes secret) body)) (signature.drop 7) = true := by
  unfold verifySignature
  by_cases hg : signature = [] ∨ signature.length < 7 ∨ signature.take 7 ≠ strBytes "sha256="
  · rw [if_pos hg]
    constructor
    · intro hc; exact absurd hc (by simp)
    · rintro ⟨htake, _⟩
      have hlen : (signature.take 7).length = 7 := by rw [htake]; exact sha256HeaderLen
      rw [List.length_take] at hlen
      have h7 : 7 ≤ signature.length := by omega
      have hne : signature ≠ [] := by
        intro hnil; rw [hnil] at h7; simp at h7
      rcases hg with hg | hg | hg
      · exact absurd hg hne
      · exact absurd hg (by omega)
      · exact absurd htake hg
  · rw [if_neg hg]
    push_neg at hg
    obtain ⟨-, -, htake⟩ := hg
    by_cases hM : hmacEqual (hexEncode (hmacSha256 (strBytes secret) body)) (signature.drop 7) = true
    · simp [hM, htake]
    · simp only [Bool.not_eq_true] at hM
      simp [hM, htake]

theorem verify_correct (secret : String) (body : List Nat) :
    verifySignature secret body (goodSig secret body) = .ok () := by
  rw [verify_ok_iff]
  unfold goodSig
  constructor
  · rw [← sha256HeaderLen, List.take_left]
  · rw [← sha256HeaderLen, List.drop_left, hmacEqual_iff]

theorem verify_ok_unique (secret : String) (body signature : List Nat)
    (h : verifySignature secret body signature = .ok ()) :
    signature = goodSig secret body := by
  rw [verify_ok_iff] at h
  obtain ⟨htake, hmac⟩ := h
  rw [hmacEqual_iff] at hmac
  calc signature = signature.take 7 ++ signature.drop 7 := (List.take_append_drop 7 signature).symm
    _ = goodSig secret body := by rw [htake, ← hmac]; rfl

theorem handler_accepts (secret : String) (ju : List Nat → Option GitHubWebhookPayload)
    (body signature : List Nat) (p : GitHubWebhookPayload)
    (hv : verifySignature secret body signature = .ok ())
    (hp : ju body = some p) (hr : p.ref = "refs/heads/main")
    (hn : repoNamePattern p.repository.name = true) :
    githubWebhookHandler secret ju (some body) signature "push" =
      (⟨200, .queued⟩, [p.repository.name]) := by
  simp [githubWebhookHandler, hv, hp, hr, hn]

/-- C3: marking the same identity pending twice before it is cleared is
idempotent: the second runDeploy call returns exactly the state and success
outcome of the first, and on available storage the slot directory for that
identity is present exactly once (assuming the directory listing had no
duplicates, which MkdirAll preserves). -/
theorem runDeploy_idempotent (fs : FS) (repository : String) (h : fs.dirs.Nodup) :
    runDeploy (runDeploy fs repository).1 repository = runDeploy fs repository ∧
    (fs.available = true →
      ((runDeploy (runDeploy fs repository).1 repository).1.dirs.count
          (filepathJoin webhookDir repository) = 1 ∧
        (runDeploy (runDeploy fs repository).1 repository).1.dirs.Nodup)) := by
  obtain ⟨dirs, avail⟩ := fs
  simp only at h
  cases avail with
  | false =>
    refine ⟨rfl, fun hc => absurd hc (by simp)⟩
  | true =>
    by_cases hm : filepathJoin webhookDir repository ∈ dirs
    · have h1 : runDeploy ⟨dirs, true⟩ repository = (⟨dirs, true⟩, true) := by
        simp [runDeploy, mkdirAll, hm]
      rw [h1]
      exact ⟨h1, fun _ => by rw [h1]; exact ⟨List.count_eq_one_of_mem h hm, h⟩⟩
    · have h1 : runDeploy ⟨dirs, true⟩ repository =
          (⟨filepathJoin webhookDir repository :: dirs, true⟩, true) := by
        simp [runDeploy, mkdirAll, hm]
      have h2 : runDeploy ⟨filepathJoin webhookDir repository :: dirs, true⟩ repository =
          (⟨filepathJoin webhookDir repository :: dirs, true⟩, true) := by
        simp [runDeploy, mkdirAll]
      rw [h1, h2]
      refine ⟨rfl, fun _ => ⟨?_, List.nodup_cons.mpr ⟨hm, h⟩⟩⟩
      rw [List.count_cons_self, List.count_eq_zero_of_not_mem hm]

/-- C3 witness: concrete run on empty available storage. -/
theorem runDeploy_idempotent_witness :
    ([] : List String).Nodup ∧
    (runDeploy (runDeploy ⟨[], true⟩ "svc1").1 "svc1" = runDeploy ⟨[], true⟩ "svc1" ∧
      ((⟨[], true⟩ : FS).available = true →
        ((runDeploy (runDeploy ⟨[], true⟩ "svc1").1 "svc1").1.dirs.count
            (filepathJoin webhookDir "svc1") = 1 ∧
          (runDeploy (runDeploy ⟨[], true⟩ "svc1").1 "svc1").1.dirs.Nodup))) :=
  ⟨List.nodup_nil, runDeploy_idempotent ⟨[], true⟩ "svc1" List.nodup_nil⟩

/-- C4: a correctly signed push request whose payload ref is not the deploy
branch refs/heads/main gets the success-with-ignored response, and no queue
slot write is spawned. -/
theorem wrong_ref_ignored_no_slot (secret : String)
    (ju : List Nat → Option GitHubWebhookPayload) (body signature : List Nat)
    (p : GitHubWebhookPayload)
    (hv : verifySignature secret body signature = .ok ())
    (hp : ju body = some p) (hr : p.ref ≠ "refs/heads/main") :
    githubWebhookHandler secret ju (some body) signature "push" =
      (⟨200, .ignored "not main"⟩, []) := by
  simp [githubWebhookHandler, hv, hp, hr]

/-- C4 witness: a correctly signed push for a dev-branch payload is ignored. -/
theorem wrong_ref_ignored_no_slot_witness :
    verifySignature "s" (strBytes "x") (goodSig "s" (strBytes "x")) = .ok () ∧
    (fun _ => some (⟨"refs/heads/dev", ⟨"svc1"⟩⟩ : GitHubWebhookPayload)) (strBytes "x") =
      some ⟨"refs/heads/dev", ⟨"svc1"⟩⟩ ∧
    ("refs/heads/dev" : String) ≠ "refs/heads/main" ∧
    githubWebhookHandler "s" (fun _ => some ⟨"refs/heads/dev", ⟨"svc1"⟩⟩)
        (some (strBytes "x")) (goodSig "s" (strBytes "x")) "push" =
      (⟨200, .ignored "not main"⟩, []) :=
  ⟨verify_correct "s" (strBytes "x"), rfl, by decide,
    wrong_ref_ignored_no_slot "s" (fun _ => some ⟨"refs/heads/dev", ⟨"svc1"⟩⟩)
      (strBytes "x") (goodSig "s" (strBytes "x")) ⟨"refs/heads/dev", ⟨"svc1"⟩⟩
      (verify_correct "s" (strBytes "x")) rfl (by decide)⟩

/-- C6: a request whose signature header is missing, lacks the sha256= prefix,
or whose HMAC does not match the body is answered 401 with the verification
error, and no further processing happens: no queue slot write is spawned for
any event header or parse outcome. -/
theorem bad_signature_unauthorized_no_slot (secret : String)
    (ju : List Nat → Option GitHubWebhookPayload) (body signature : List Nat)
    (event : String)
    (h : signature.take 7 ≠ strBytes "sha256=" ∨
      hmacEqual (hexEncode (hmacSha256 (strBytes secret) body))
        (signature.drop 7) = false) :
    ∃ e, verifySignature secret body signature = .error e ∧
      githubWebhookHandler secret ju (some body) signature event =
        (⟨401, .errMsg e⟩, []) := by
  have hok : verifySignature secret body signature ≠ .ok () := by
    intro hc
    rw [verify_ok_iff] at hc
    obtain ⟨h1, h2⟩ := hc
    rcases h with h | h
    · exact h h1
    · rw [h2] at h; exact absurd h (by decide)
  cases hv : verifySignature secret body signature with
  | ok u => cases u; exact absurd hv hok
  | error e => exact ⟨e, rfl, by simp [githubWebhookHandler, hv]⟩

/-- C6 witness: the empty (missing) signature header is rejected with 401 and
spawns nothing. -/
theorem bad_signature_unauthorized_no_slot_witness :
    (([] : List Nat).take 7 ≠ strBytes "sha256=") ∧
    ∃ e, verifySignature "s" (strBytes "x") [] = .error e ∧
      githubWebhookHandler "s" (fun _ => none) (some (strBytes "x")) [] "push" =
        (⟨401, .errMsg e⟩, []) :=
  ⟨by decide, bad_signature_unauthorized_no_slot "s" (fun _ => none) (strBytes "x") []
    "push" (Or.inl (by decide))⟩

/-- C7: a correctly signed push on the deploy branch whose repository name
fails the identifier pattern gets the success-with-ignored response, not an
error, and no queue slot write is spawned. -/
theorem invalid_repo_name_ignored_no_slot (secret : String)
    (ju : List Nat → Option GitHubWebhookPayload) (body signature : List Nat)
    (p : GitHubWebhookPayload)
    (hv : verifySignature secret body signature = .ok ())
    (hp : ju body = some p) (hr : p.ref = "refs/heads/main")
    (hn : repoNamePattern p.repository.name = false) :
    githubWebhookHandler secret ju (some body) signature "push" =
      (⟨200, .ignored "invalid repository"⟩, []) := by
  simp [githubWebhookHandler, hv, hp, hr, hn]

/-- C7 witness: a repository name with a space fails the pattern and is
ignored. -/
theorem invalid_repo_name_ignored_no_slot_witness :
    verifySignature "s" (strBytes "x") (goodSig "s" (strBytes "x")) = .ok () ∧
    repoNamePattern "bad name" = false ∧
    githubWebhookHandler "s" (fun _ => some ⟨"refs/heads/main", ⟨"bad name"⟩⟩)
        (some (strBytes "x")) (goodSig "s" (strBytes "x")) "push" =
      (⟨200, .ignored "invalid repository"⟩, []) :=
  ⟨verify_correct "s" (strBytes "x"), by decide,
    invalid_repo_name_ignored_no_slot "s" (fun _ => some ⟨"refs/heads/main", ⟨"bad name"⟩⟩)
      (strBytes "x") (goodSig "s" (strBytes "x")) ⟨"refs/heads/main", ⟨"bad name"⟩⟩
      (verify_correct "s" (strBytes "x")) rfl rfl (by decide)⟩

/-- C1 (amended): once every validation passes, the handler responds 200 ok
queued immediately and spawns the slot-directory write asynchronously via a
goroutine; the response is computed without consulting storage, so when
storage is unavailable the spawned slot write fails, changes nothing, is only
logged, and the already-determined response remains the 200 queued success. -/
theorem accept_response_independent_of_slot_write (secret : String)
    (ju : List Nat → Option GitHubWebhookPayload) (body signature : List Nat)
    (p : GitHubWebhookPayload) (fs : FS)
    (hv : verifySignature secret body signature = .ok ())
    (hp : ju body = some p) (hr : p.ref = "refs/heads/main")
    (hn : repoNamePattern p.repository.name = true)
    (hfs : fs.available = false) :
    githubWebhookHandler secret ju (some body) signature "push" =
      (⟨200, .queued⟩, [p.repository.name]) ∧
    runDeploy fs p.repository.name = (fs, false) := by
  refine ⟨handler_accepts secret ju body signature p hv hp hr hn, ?_⟩
  simp [runDeploy, mkdirAll, hfs]

/-- C1 witness: concrete accepted push with unavailable storage. -/
theorem accept_response_independent_of_slot_write_witness :
    verifySignature "s" (strBytes "x") (goodSig "s" (strBytes "x")) = .ok () ∧
    parseMainSvc1 (strBytes "x") = some ⟨"refs/heads/main", ⟨"svc1"⟩⟩ ∧
    repoNamePattern "svc1" = true ∧
    (⟨[], false⟩ : FS).available = false ∧
    (githubWebhookHandler "s" parseMainSvc1 (some (strBytes "x"))
        (goodSig "s" (strBytes "x")) "push" = (⟨200, .queued⟩, ["svc1"]) ∧
      runDeploy ⟨[], false⟩ "svc1" = (⟨[], false⟩, false)) :=
  ⟨verify_correct "s" (strBytes "x"), rfl, by decide, rfl,
    accept_response_independent_of_slot_write "s" parseMainSvc1 (strBytes "x")
      (goodSig "s" (strBytes "x")) ⟨"refs/heads/main", ⟨"svc1"⟩⟩ ⟨[], false⟩
      (verify_correct "s" (strBytes "x")) rfl rfl (by decide) rfl⟩

/-- C1 counterexample: a fully valid, correctly signed push trigger while
slot storage is unavailable. The handler answers 200 ok queued even though
the slot write it spawned fails and creates nothing, refuting that queued
true is only reported after the slot write durably succeeded and that
slot-creation failure surfaces as a server error. -/
theorem queued_true_despite_slot_failure :
    githubWebhookHandler "s" parseMainSvc1 (some (strBytes "x"))
        (goodSig "s" (strBytes "x")) "push" = (⟨200, .queued⟩, ["svc1"]) ∧
    runDeploy ⟨[], false⟩ "svc1" = (⟨[], false⟩, false) := by
  constructor
  · exact handler_accepts "s" parseMainSvc1 (strBytes "x") (goodSig "s" (strBytes "x"))
      ⟨"refs/heads/main", ⟨"svc1"⟩⟩ (verify_correct "s" (strBytes "x")) rfl rfl (by decide)
  · rfl

/-- C5 (amended): a correctly signed request carrying the push event header
whose body does not parse as the expected JSON payload is answered 400 with
the invalid JSON error, and no slot write is spawned. -/
theorem push_unparseable_body_400 (secret : String)
    (ju : List Nat → Option GitHubWebhookPayload) (body signature : List Nat)
    (hv : verifySignature secret body signature = .ok ())
    (hp : ju body = none) :
    githubWebhookHandler secret ju (some body) signature "push" =
      (⟨400, .errMsg "invalid JSON"⟩, []) := by
  simp [githubWebhookHandler, hv, hp]

/-- C5 witness: a correctly signed push whose body fails to parse gets 400. -/
theorem push_unparseable_body_400_witness :
    verifySignature "s" (strBytes "notjson") (goodSig "s" (strBytes "notjson")) = .ok () ∧
    (fun _ => (none : Option GitHubWebhookPayload)) (strBytes "notjson") = none ∧
    githubWebhookHandler "s" (fun _ => none) (some (strBytes "notjson"))
        (goodSig "s" (strBytes "notjson")) "push" = (⟨400, .errMsg "invalid JSON"⟩, []) :=
  ⟨verify_correct "s" (strBytes "notjson"), rfl,
    push_unparseable_body_400 "s" (fun _ => none) (strBytes "notjson")
      (goodSig "s" (strBytes "notjson")) (verify_correct "s" (strBytes "notjson")) rfl⟩

/-- C5 counterexample: a correctly signed request whose body is unparseable
but whose event header is not push is answered 200 with ignored, not 400,
because the event filter runs before JSON parsing. -/
theorem unparseable_body_not_always_400 :
    verifySignature "s" (strBytes "notjson") (goodSig "s" (strBytes "notjson")) = .ok () ∧
    (fun _ => (none : Option GitHubWebhookPayload)) (strBytes "notjson") = none ∧
    githubWebhookHandler "s" (fun _ => none) (some (strBytes "notjson"))
        (goodSig "s" (strBytes "notjson")) "pull_request" =
      (⟨200, .ignored "not a push"⟩, []) := by
  refine ⟨verify_correct "s" (strBytes "notjson"), rfl, ?_⟩
  simp [githubWebhookHandler, verify_correct "s" (strBytes "notjson")]

/-- C8: the MAC comparison inside signature verification is the constant-time
check: its loop-iteration count is a function of the two lengths alone, never
of where the values first differ; the check decides equality of the byte
strings; and verification succeeds exactly when the header carries the
sha256= prefix and this constant-time check accepts the received MAC against
the computed lowercase hex HMAC. -/
theorem comparison_constant_time :
    (∀ x y : List Nat, constantTimeCompareSteps x y =
        if x.length = y.length then x.length else 0) ∧
    (∀ x y : List Nat, hmacEqual x y = true ↔ x = y) ∧
    (∀ (secret : String) (body signature : List Nat),
        verifySignature secret body signature = .ok () ↔
          signature.take 7 = strBytes "sha256=" ∧
          hmacEqual (hexEncode (hmacSha256 (strBytes secret) body))
            (signature.drop 7) = true) := by
  refine ⟨fun x y => ?_, hmacEqual_iff, verify_ok_iff⟩
  unfold constantTimeCompareSteps
  by_cases hl : x.length = y.length
  · simp [hl, ctLoopSteps_eq_min]
  · simp [hl]

theorem handler_spawn_pattern (secret : String)
    (ju : List Nat → Option GitHubWebhookPayload) (bodyRead : Option (List Nat))
    (signature : List Nat) (event : String) (repo : String)
    (h : repo ∈ (githubWebhookHandler secret ju bodyRead signature event).2) :
    repoNamePattern repo = true := by
  rcases bodyRead with _ | body
  · simp [githubWebhookHandler] at h
  · rcases hv : verifySignature secret body signature with e | u
    · simp [githubWebhookHandler, hv] at h
    · cases u
      by_cases hev : event = "push"
      · rcases hj : ju body with _ | p
        · simp [githubWebhookHandler, hv, hev, hj] at h
        · by_cases hr : p.ref = "refs/heads/main"
          · by_cases hn : repoNamePattern p.repository.name = true
            · have hrepo : repo = p.repository.name := by
                have hx := h
                simp [githubWebhookHandler, hv, hev, hj, hr, hn] at hx
                exact hx
              rw [hrepo]; exact hn
            · simp [githubWebhookHandler, hv, hev, hj, hr, hn] at h
          · simp [githubWebhookHandler, hv, hev, hj, hr] at h
      · simp [githubWebhookHandler, hv, hev] at h

theorem repoNameChar_not_sep {c : Char} (hc : isRepoNameChar c = true) :
    c ≠ '/' ∧ c ≠ '.' := by
  constructor <;> rintro rfl <;> revert hc <;> decide

/-- C9: every queue-slot path the handler can spawn a write for is a strict
subdirectory of the mailbox root: any spawned repository name matches the
identifier pattern, hence is nonempty and contains no path separator and no
dot, and the joined slot path is exactly the root, one separator, then that
name, and differs from the root itself — so no trigger payload can cause a
write at the root or outside it. -/
theorem slot_paths_strictly_under_root (secret : String)
    (ju : List Nat → Option GitHubWebhookPayload) (bodyRead : Option (List Nat))
    (signature : List Nat) (event : String) (repo : String)
    (h : repo ∈ (githubWebhookHandler secret ju bodyRead signature event).2) :
    repoNamePattern repo = true ∧ repo ≠ "" ∧
    (∀ c ∈ repo.data, c ≠ '/' ∧ c ≠ '.') ∧
    (filepathJoin webhookDir repo).data = webhookDir.data ++ '/' :: repo.data ∧
    filepathJoin webhookDir repo ≠ webhookDir := by
  have hpat := handler_spawn_pattern secret ju bodyRead signature event repo h
  have hdata : (filepathJoin webhookDir repo).data = webhookDir.data ++ '/' :: repo.data := rfl
  refine ⟨hpat, ?_, ?_, hdata, ?_⟩
  · intro hempty
    rw [hempty] at hpat
    exact absurd hpat (by decide)
  · intro c hc
    have hpat2 := hpat
    simp only [repoNamePattern, Bool.and_eq_true, List.all_eq_true] at hpat2
    exact repoNameChar_not_sep (hpat2.2 c hc)
  · intro heq
    have hd2 := congrArg String.data heq
    rw [hdata] at hd2
    have hlen := congrArg List.length hd2
    simp only [List.length_append, List.length_cons] at hlen
    omega

/-- C9 witness: the accepted svc1 push spawns exactly the svc1 slot write,
whose path sits strictly under the mailbox root. -/
theorem slot_paths_strictly_under_root_witness :
    "svc1" ∈ (githubWebhookHandler "s" parseMainSvc1 (some (strBytes "x"))
        (goodSig "s" (strBytes "x")) "push").2 ∧
    (repoNamePattern "svc1" = true ∧ ("svc1" : String) ≠ "" ∧
      (∀ c ∈ ("svc1" : String).data, c ≠ '/' ∧ c ≠ '.') ∧
      (filepathJoin webhookDir "svc1").data = webhookDir.data ++ '/' :: ("svc1" : String).data ∧
      filepathJoin webhookDir "svc1" ≠ webhookDir) := by
  have hmem : "svc1" ∈ (githubWebhookHandler "s" parseMainSvc1 (some (strBytes "x"))
      (goodSig "s" (strBytes "x")) "push").2 := by
    rw [handler_accepts "s" parseMainSvc1 (strBytes "x") (goodSig "s" (strBytes "x"))
      ⟨"refs/heads/main", ⟨"svc1"⟩⟩ (verify_correct "s" (strBytes "x")) rfl rfl (by decide)]
    exact List.mem_singleton_self _
  exact ⟨hmem, slot_paths_strictly_under_root "s" parseMainSvc1 (some (strBytes "x"))
    (goodSig "s" (strBytes "x")) "push" "svc1" hmem⟩

/-- C10: the received signature is compared textually against the lowercase
hex encoding of the computed HMAC, so a cryptographically correct MAC
presented in uppercase hex is rejected with a signature mismatch, while the
same MAC in lowercase hex verifies. -/
theorem uppercase_hex_signature_rejected :
    verifySignature "s" (strBytes "x")
        (strBytes "sha256=CEFB105EE22996FB167ED606478D2931B87AA3AB99B4B04B68C4FC16C8B49A30") =
      .error "signature mismatch" ∧
    verifySignature "s" (strBytes "x")
        (strBytes "sha256=cefb105ee22996fb167ed606478d2931b87aa3ab99b4b04b68c4fc16c8b49a30") =
      .ok () := by
  constructor
  · decide
  · decide
